import Mathlib

/-!
Verification of the round-timing and game state machines of the
unscrambler repository (Go).  Times (`time.Time`) are modelled as integers
(nanoseconds since some epoch); the Go zero `time.Time` is modelled as the
integer 0, so `IsZero()` becomes `= 0`, `After` becomes `>` and `Before`
becomes `<`.  Durations (`time.Duration`) are likewise integers.
-/

set_option maxHeartbeats 1000000

/-- Go `unicode.IsSpace` restricted to the ASCII whitespace characters
(space, tab, newline, vertical tab, form feed, carriage return); the game
only ever handles ASCII words and guesses. -/
def goIsSpace (c : Char) : Bool :=
  c = ' ' ∨ c = '\t' ∨ c = '\n' ∨ c = '\x0b' ∨ c = '\x0c' ∨ c = '\r'

/-- Go `strings.ToLower` on one character, ASCII range. -/
def goToLowerChar (c : Char) : Char :=
  if 65 ≤ c.toNat ∧ c.toNat ≤ 90 then Char.ofNat (c.toNat + 32) else c

/-- Go `strings.TrimSpace` on the character list of a string. -/
def goTrimSpace (l : List Char) : List Char :=
  ((l.dropWhile goIsSpace).reverse.dropWhile goIsSpace).reverse

/-- Embeds the guess normalization shared by both game variants:
`strings.ToLower(strings.TrimSpace(guess))` followed by
`strings.ReplaceAll(·, " ", "")` — replacing every single space by the
empty string is exactly filtering the spaces out. -/
def normalizeGuess (s : String) : String :=
  String.mk (((goTrimSpace s.data).map goToLowerChar).filter (fun c => ¬ (c = ' ')))

/-- Go `<` on characters (byte/rune comparison). -/
def charLtb (a b : Char) : Bool := a.toNat < b.toNat

/-- Go `<` on strings: lexicographic comparison. -/
def listLtb : List Char → List Char → Bool
  | [], [] => false
  | [], _ :: _ => true
  | _ :: _, [] => false
  | a :: as, b :: bs => if charLtb a b then true else if charLtb b a then false else listLtb as bs

/-- Go `<` on strings (used by `sort.Strings` and the score comparators). -/
def strLtb (a b : String) : Bool := listLtb a.data b.data

/-- Insertion sort used to model Go `sort.Slice` / `sort.Strings` /
`sort.Ints` with a strict-order comparator (the comparators below are
strict total orders on the data they sort, so the result is the unique
sorted arrangement and stability questions do not arise). -/
def insertSorted {α : Type} (less : α → α → Bool) (x : α) : List α → List α
  | [] => [x]
  | y :: ys => if less x y then x :: y :: ys else y :: insertSorted less x ys

/-- Sort a list with the given strict comparator (models the Go sorts). -/
def sortBy {α : Type} (less : α → α → Bool) (l : List α) : List α :=
  l.foldr (insertSorted less) []

/-- Go maps `map[string]*T` are modelled as association lists; updating the
struct behind a looked-up pointer is updating the entry at that key. -/
def updateAssoc {β : Type} (ps : List (String × β)) (id : String) (f : β → β) :
    List (String × β) :=
  ps.map (fun kv => if kv.1 == id then (kv.1, f kv.2) else kv)

namespace realtime

/-- Embeds `TimedRounds` from pkg/realtime/timed_rounds.go. -/
structure TimedRounds where
  Duration : Int
  Cooldown : Int
  Rounds : Int
  CurrentRound : Int
  RoundStarted : Int
  RoundEndedAt : Int
deriving DecidableEq, Repr

/-- Embeds `DefaultCooldown = 5 * time.Second` (nanoseconds). -/
def DefaultCooldown : Int := 5 * 1000000000

/-- Embeds `TimedRounds.NextWake`: `(next, active)`.  The Go code returns
`(zero, false)` when never started; in the cooling-down branch it returns
`now` itself when `now.After(next)`.  The Go local `next` is inlined. -/
def TimedRounds.NextWake (t : TimedRounds) (now : Int) : Int × Bool :=
  if t.RoundStarted = 0 then (0, false)
  else if t.RoundEndedAt = 0 then (t.RoundStarted + t.Duration, true)
  else if t.RoundEndedAt + t.Cooldown < now then (now, true)
  else (t.RoundEndedAt + t.Cooldown, true)

/-- Embeds `TimedRounds.Advance`.  Go mutates the receiver; here the updated
value is returned along with `(advanced, finished)`.  The Go local
`roundEnd := t.RoundStarted.Add(t.Duration)` is inlined. -/
def TimedRounds.Advance (t : TimedRounds) (now : Int) : TimedRounds × Bool × Bool :=
  if t.RoundStarted = 0 then (t, false, false)
  else if t.RoundEndedAt = 0 ∧ t.RoundStarted + t.Duration < now then
    ({ t with RoundEndedAt := t.RoundStarted + t.Duration }, true, false)
  else if t.RoundEndedAt = 0 then (t, false, false)
  else if now < t.RoundEndedAt + t.Cooldown then (t, false, false)
  else if t.Rounds ≤ t.CurrentRound then (t, true, true)
  else ({ t with CurrentRound := t.CurrentRound + 1, RoundStarted := now, RoundEndedAt := 0 }, true, false)

/-- Embeds `TimedRounds.Start`. -/
def TimedRounds.Start (t : TimedRounds) (now : Int) : TimedRounds :=
  { t with CurrentRound := 1, RoundStarted := now, RoundEndedAt := 0 }

/-- States reachable from the zero `TimedRounds` value (with the three
configuration fields set) by one `Start` followed by any sequence of
`Advance` calls at non-decreasing times; the second index is the time of
the last call. -/
inductive TimedRounds.Reachable (dur cool rounds start0 : Int) :
    TimedRounds → Int → Prop
  | start : TimedRounds.Reachable dur cool rounds start0
      (TimedRounds.Start
        { Duration := dur, Cooldown := cool, Rounds := rounds,
          CurrentRound := 0, RoundStarted := 0, RoundEndedAt := 0 } start0) start0
  | step (t : TimedRounds) (last now : Int)
      (h : TimedRounds.Reachable dur cool rounds start0 t last)
      (hle : last ≤ now) :
      TimedRounds.Reachable dur cool rounds start0 ((t.Advance now).1) now

end realtime

namespace game

/-! Embedding of the word-unscramble variant, src/internal/game/store.go. -/

def StatusLobby : String := "lobby"

def StatusInProgress : String := "in_progress"

def StatusFinished : String := "finished"

/-- Embeds `Round` (a word and its scrambled form). -/
structure Round where
  Word : String
  Scrambled : String
deriving DecidableEq, Repr

/-- Embeds `Player`. -/
structure Player where
  ID : String
  Username : String
  JoinedAt : Int
  Points : Int
  Progress : Int
deriving DecidableEq, Repr

/-- Embeds `Game`.  The Go `map[string]*Player` is an association list;
its mutex only serializes the methods and has no sequential meaning. -/
structure Game where
  ID : String
  CreatedAt : Int
  TimedRounds : realtime.TimedRounds
  RoundData : List Round
  Status : String
  Lang : String
  RoundWinnerID : String
  RoundSolvedAt : Int
  OwnerID : String
  Players : List (String × Player)
deriving DecidableEq, Repr

/-- Embeds `Game.Start`; the Go `error` result is `Option String`. -/
def Game.Start (g : Game) (now : Int) : Game × Option String :=
  if g.Status ≠ StatusLobby then (g, some "game already started")
  else
    ({ g with Status := StatusInProgress,
              TimedRounds := g.TimedRounds.Start now,
              RoundWinnerID := "", RoundSolvedAt := 0,
              Players := g.Players.map (fun kv => (kv.1, { kv.2 with Progress := 0 })) },
     none)

/-- Embeds `Game.Restart`.  `BuildRounds` draws fresh random words; that
draw is passed in as `newRoundData`. -/
def Game.Restart (g : Game) (now : Int) (newRoundData : List Round) : Game :=
  { g with RoundData := newRoundData,
           Status := StatusInProgress,
           TimedRounds := g.TimedRounds.Start now,
           RoundWinnerID := "", RoundSolvedAt := 0,
           Players := g.Players.map (fun kv => (kv.1, { kv.2 with Points := 0, Progress := 0 })) }

/-- Embeds `Game.advanceIfNeededLocked`.  The Go code calls
`g.TimedRounds.Advance(now)` once; the pure call is repeated here, which
is equivalent. -/
def Game.advanceIfNeededLocked (g : Game) (now : Int) : Game × Bool :=
  if g.Status ≠ StatusInProgress ∨ g.TimedRounds.RoundStarted = 0 then (g, false)
  else if (g.TimedRounds.Advance now).2.2 then
    ({ g with TimedRounds := (g.TimedRounds.Advance now).1, Status := StatusFinished }, true)
  else if (g.TimedRounds.Advance now).2.1 then
    ({ g with TimedRounds := (g.TimedRounds.Advance now).1,
              RoundWinnerID := "", RoundSolvedAt := 0,
              Players := g.Players.map (fun kv => (kv.1, { kv.2 with Progress := 0 })) },
     true)
  else ({ g with TimedRounds := (g.TimedRounds.Advance now).1 }, (g.TimedRounds.Advance now).2.1)

/-- Embeds `Game.AdvanceIfNeeded` (the lock wrapper). -/
def Game.AdvanceIfNeeded (g : Game) (now : Int) : Game × Bool :=
  g.advanceIfNeededLocked now

/-- Embeds `Game.currentRoundDataLocked`. -/
def Game.currentRoundDataLocked (g : Game) : Round :=
  if g.TimedRounds.CurrentRound = 0 ∨ (g.RoundData.length : Int) < g.TimedRounds.CurrentRound then
    { Word := "", Scrambled := "" }
  else g.RoundData.getD (g.TimedRounds.CurrentRound - 1).toNat { Word := "", Scrambled := "" }

/-- Embeds `Game.SubmitGuess`: result is `(correct, error)` plus the
updated game.  `len(round.Word)` and the half-time integer division follow
the Go semantics (`Int.tdiv` truncates like Go division). -/
def Game.SubmitGuess (g0 : Game) (playerID guess : String) (now : Int) :
    Game × Bool × Option String :=
  if g0.Status ≠ StatusInProgress then (g0, false, some "game not in progress")
  else if g0.TimedRounds.RoundStarted = 0 then (g0, false, some "round not started")
  else
    let g := (g0.advanceIfNeededLocked now).1
    if g.Status ≠ StatusInProgress then (g, false, none)
    else if g.TimedRounds.RoundEndedAt ≠ 0 then (g, false, none)
    else if g.RoundWinnerID ≠ "" then (g, false, none)
    else
      match g.Players.lookup playerID with
      | none => (g, false, some "player not found")
      | some _ =>
        let normalized := normalizeGuess guess
        let round := g.currentRoundDataLocked
        if normalized = "" ∨ round.Word = "" then (g, false, none)
        else if normalized ≠ round.Word then (g, false, none)
        else
          let points : Int :=
            if now < g.TimedRounds.RoundStarted + Int.tdiv g.TimedRounds.Duration 2 then 2 else 1
          ({ g with
              Players := updateAssoc g.Players playerID
                (fun p => { p with Points := p.Points + points,
                                   Progress := (round.Word.length : Int) }),
              RoundWinnerID := playerID,
              RoundSolvedAt := now,
              TimedRounds := { g.TimedRounds with RoundEndedAt := now } },
           true, none)

/-- Embeds `Game.UpdateProgress` (returns nothing in Go; here the updated
game). -/
def Game.UpdateProgress (g0 : Game) (playerID : String) (correct : Int) (now : Int) : Game :=
  if g0.Status ≠ StatusInProgress then g0
  else
    let g := (g0.advanceIfNeededLocked now).1
    if g.Status ≠ StatusInProgress ∨ g.TimedRounds.RoundEndedAt ≠ 0 then g
    else
      let round := g.currentRoundDataLocked
      if round.Word = "" then g
      else
        let c1 := if correct < 0 then 0 else correct
        let c2 := if (round.Word.length : Int) < c1 then (round.Word.length : Int) else c1
        match g.Players.lookup playerID with
        | none => g
        | some _ =>
          { g with Players := updateAssoc g.Players playerID (fun p => { p with Progress := c2 }) }

/-- Embeds `ScoreEntry`. -/
structure ScoreEntry where
  Name : String
  Points : Int
deriving DecidableEq, Repr

/-- Embeds `PlayerProgress`. -/
structure PlayerProgress where
  Name : String
  Correct : Int
deriving DecidableEq, Repr

/-- The `sort.Slice` comparator of `sortScores`: points descending, name
ascending on ties. -/
def scoreLess (a b : ScoreEntry) : Bool :=
  if a.Points == b.Points then strLtb a.Name b.Name else decide (b.Points < a.Points)

/-- Embeds `sortScores`. -/
def sortScores (l : List ScoreEntry) : List ScoreEntry := sortBy scoreLess l

/-- The `sort.Slice` comparator of `sortProgress`. -/
def progressLess (a b : PlayerProgress) : Bool :=
  if a.Correct == b.Correct then strLtb a.Name b.Name else decide (b.Correct < a.Correct)

/-- Embeds `sortProgress`. -/
def sortProgress (l : List PlayerProgress) : List PlayerProgress := sortBy progressLess l

/-- Embeds `resolveWinner` (expects the sorted score list). -/
def resolveWinner (scores : List ScoreEntry) : String :=
  match scores with
  | [] => ""
  | top :: _ =>
    if top.Points = 0 then "No winner"
    else
      let winners := (scores.takeWhile (fun e => e.Points == top.Points)).map (fun e => e.Name)
      if winners.length = 1 then winners.headD ""
      else "Tie: " ++ String.intercalate ", " winners

/-- Embeds the `Snapshot` struct. -/
structure Snapshot where
  ID : String
  Status : String
  CurrentRound : Int
  Rounds : Int
  RoundDuration : Int
  RoundStarted : Int
  RoundData : Round
  RoundWinner : String
  RoundEndedAt : Int
  NextRoundAt : Int
  Players : List String
  Progress : List PlayerProgress
  WordLength : Int
  Scores : List ScoreEntry
  WinnerName : String
deriving DecidableEq, Repr

/-- Embeds `Game.Snapshot`: builds the view after applying
`advanceIfNeededLocked`; also returns the (possibly advanced) game, since
the Go method mutates the receiver. -/
def Game.Snapshot (g0 : Game) (now : Int) : Snapshot × Game :=
  let g := (g0.advanceIfNeededLocked now).1
  let players := g.Players.map (fun kv => kv.2.Username)
  let scores := sortScores (g.Players.map
    (fun kv => { Name := kv.2.Username, Points := kv.2.Points }))
  let progress := sortProgress (g.Players.map
    (fun kv => { Name := kv.2.Username, Correct := kv.2.Progress }))
  let roundWinner :=
    if g.RoundWinnerID ≠ "" then
      match g.Players.lookup g.RoundWinnerID with
      | some w => w.Username
      | none => ""
    else ""
  let nextRoundAt :=
    if g.TimedRounds.RoundEndedAt ≠ 0 then g.TimedRounds.RoundEndedAt + g.TimedRounds.Cooldown
    else 0
  let winnerName := if g.Status = StatusFinished then resolveWinner scores else ""
  let wordLength : Int :=
    if g.currentRoundDataLocked.Word ≠ "" then (g.currentRoundDataLocked.Word.length : Int) else 0
  ({ ID := g.ID, Status := g.Status, CurrentRound := g.TimedRounds.CurrentRound,
     Rounds := g.TimedRounds.Rounds, RoundDuration := g.TimedRounds.Duration,
     RoundStarted := g.TimedRounds.RoundStarted, RoundData := g.currentRoundDataLocked,
     RoundWinner := roundWinner, RoundEndedAt := g.TimedRounds.RoundEndedAt,
     NextRoundAt := nextRoundAt, Players := players, Progress := progress,
     WordLength := wordLength, Scores := scores, WinnerName := winnerName }, g)

end game

namespace explain

/-! Embedding of the emoji-charades variant, src/internal/explain/game.go. -/

def StatusLobby : String := "lobby"

def StatusInProgress : String := "in_progress"

def StatusFinished : String := "finished"

def DefaultEmojisPerRound : Int := 8

def MinPlayers : Nat := 2

/-- Embeds `RoundData` (pre-picked word and emoji palette per round). -/
structure RoundData where
  Word : String
  Emojis : List String
deriving DecidableEq, Repr

/-- Embeds `CanvasItem`.  The float64 coordinates are modelled as exact
rationals; no claim depends on their arithmetic. -/
structure CanvasItem where
  ID : String
  Emoji : String
  X : Rat
  Y : Rat
deriving DecidableEq, Repr

/-- Embeds `Player`. -/
structure Player where
  ID : String
  Username : String
  JoinedAt : Int
  Points : Int
deriving DecidableEq, Repr

/-- Embeds `Game`. -/
structure Game where
  ID : String
  CreatedAt : Int
  TimedRounds : realtime.TimedRounds
  RoundData : List RoundData
  Status : String
  Lang : String
  OwnerID : String
  Players : List (String × Player)
  Word : String
  ExplainerID : String
  Canvas : List CanvasItem
  RevealedIndices : List Int
  RoundEmojis : List String
  EmojisPerRound : Int
  RoundWinnerID : String
  RoundSolvedAt : Int
deriving DecidableEq, Repr

/-- Embeds `Game.currentRoundDataLocked`. -/
def Game.currentRoundDataLocked (g : Game) : explain.RoundData :=
  if g.TimedRounds.CurrentRound ≤ 0 ∨ (g.RoundData.length : Int) < g.TimedRounds.CurrentRound then
    { Word := "", Emojis := [] }
  else g.RoundData.getD (g.TimedRounds.CurrentRound - 1).toNat { Word := "", Emojis := [] }

/-- Embeds `Game.startRoundLocked`: rotates the explainer over the sorted
player IDs by round index and loads the round word/emojis.  `Int.tmod`
truncates like the Go `%`; the Go code would panic on an empty roster
(division by zero), which is unreachable because `Start` requires
`MinPlayers`. -/
def Game.startRoundLocked (g : Game) (_now : Int) : Game :=
  let playerIDs := sortBy strLtb (g.Players.map (fun kv => kv.1))
  let idx0 := Int.tmod (g.TimedRounds.CurrentRound - 1) (playerIDs.length : Int)
  let idx := if idx0 < 0 ∨ (playerIDs.length : Int) ≤ idx0 then 0 else idx0
  { g with ExplainerID := playerIDs.getD idx.toNat "",
           Word := g.currentRoundDataLocked.Word,
           RoundEmojis := g.currentRoundDataLocked.Emojis,
           Canvas := [], RevealedIndices := [],
           RoundWinnerID := "", RoundSolvedAt := 0 }

/-- Embeds `Game.Start` (requires lobby status and at least 2 players). -/
def Game.Start (g : Game) (now : Int) : Game × Option String :=
  if g.Status ≠ StatusLobby then (g, some "game already started")
  else if g.Players.length < MinPlayers then (g, some "need at least 2 players")
  else
    let g1 := { g with Status := StatusInProgress, TimedRounds := g.TimedRounds.Start now }
    (g1.startRoundLocked now, none)

/-- Embeds `Game.advanceIfNeededLocked`. -/
def Game.advanceIfNeededLocked (g : Game) (now : Int) : Game × Bool :=
  if g.Status ≠ StatusInProgress ∨ g.TimedRounds.RoundStarted = 0 then (g, false)
  else if (g.TimedRounds.Advance now).2.2 then
    ({ g with TimedRounds := (g.TimedRounds.Advance now).1, Status := StatusFinished }, true)
  else if (g.TimedRounds.Advance now).2.1 then
    (({ g with TimedRounds := (g.TimedRounds.Advance now).1,
               RoundWinnerID := "", RoundSolvedAt := 0 }).startRoundLocked now, true)
  else ({ g with TimedRounds := (g.TimedRounds.Advance now).1 }, false)

/-- Embeds `Game.AdvanceIfNeeded` (the lock wrapper). -/
def Game.AdvanceIfNeeded (g : Game) (now : Int) : Game × Bool :=
  g.advanceIfNeededLocked now

/-- Embeds `Game.RevealLettersIfNeeded`.  The Go code draws the revealed
position from a PRNG seeded with `now`; the draw is the `pick` oracle
argument, reduced modulo the number of candidates exactly as `rng.Intn`
bounds its result.  `Int.tdiv` truncates like Go duration division. -/
def Game.RevealLettersIfNeeded (g : Game) (now : Int) (pick : Nat) : Game × Bool :=
  if g.Word = "" ∨ g.Status ≠ StatusInProgress then (g, false)
  else
    let elapsed := now - g.TimedRounds.RoundStarted
    let wantRevealed : Nat :=
      if Int.tdiv (g.TimedRounds.Duration * 3) 4 ≤ elapsed then 2
      else if Int.tdiv g.TimedRounds.Duration 2 ≤ elapsed then 1
      else 0
    if wantRevealed ≤ g.RevealedIndices.length then (g, false)
    else
      let available :=
        (List.range g.Word.length).filter (fun i => ¬ g.RevealedIndices.contains (Int.ofNat i))
      if available.length = 0 then (g, false)
      else
        let idx : Int := Int.ofNat (available.getD (pick % available.length) 0)
        ({ g with RevealedIndices :=
             sortBy (fun a b => decide (a < b)) (g.RevealedIndices ++ [idx]) }, true)

/-- Embeds `Game.UpdateCanvas` (explainer only). -/
def Game.UpdateCanvas (g : Game) (playerID : String) (items : List CanvasItem) : Game × Bool :=
  if g.Status ≠ StatusInProgress ∨ g.ExplainerID ≠ playerID then (g, false)
  else ({ g with Canvas := items }, true)

/-- Exact ceiling of `a / b` for `b > 0` (Lean `/` on `Int` is floor
division for positive divisors).  Models `int(math.Ceil(x))` where
`x = a/b` is the exact value the Go float64 expression approximates. -/
def ceilDiv (a b : Int) : Int := -((-a) / b)

/-- The guesser award: `ceil(10 * remaining/duration)` floored at 1, with
`remaining = max 0 (duration - elapsed)`. -/
def guesserAward (duration elapsed : Int) : Int :=
  let remaining := if duration - elapsed < 0 then 0 else duration - elapsed
  let p := ceilDiv (10 * remaining) duration
  if p < 1 then 1 else p

/-- The explainer award: `ceil(5 * remaining/duration)` floored at 1. -/
def explainerAward (duration elapsed : Int) : Int :=
  let remaining := if duration - elapsed < 0 then 0 else duration - elapsed
  let p := ceilDiv (5 * remaining) duration
  if p < 1 then 1 else p

/-- Embeds `Game.SubmitGuess`: `(correct, error)` plus the updated game.
The two point awards follow the comment block in the source: guesser
1–10 points, explainer 1–5 points, by remaining time. -/
def Game.SubmitGuess (g0 : Game) (playerID guess : String) (now : Int) :
    Game × Bool × Option String :=
  if g0.Status ≠ StatusInProgress then (g0, false, some "game not in progress")
  else if playerID = g0.ExplainerID then (g0, false, some "explainer cannot guess")
  else if (g0.Players.lookup playerID).isNone then (g0, false, some "player not found")
  else
    let g := (g0.advanceIfNeededLocked now).1
    if g.Status ≠ StatusInProgress then (g, false, none)
    else if g.RoundWinnerID ≠ "" then (g, false, none)
    else
      let normalized := normalizeGuess guess
      if normalized = "" ∨ g.Word = "" then (g, false, none)
      else if normalized ≠ g.Word then (g, false, none)
      else
        let elapsed := now - g.TimedRounds.RoundStarted
        let ps1 := updateAssoc g.Players playerID
          (fun p => { p with Points := p.Points + guesserAward g.TimedRounds.Duration elapsed })
        let ps2 := updateAssoc ps1 g.ExplainerID
          (fun p => { p with Points := p.Points + explainerAward g.TimedRounds.Duration elapsed })
        ({ g with Players := ps2, RoundWinnerID := playerID, RoundSolvedAt := now,
                  TimedRounds := { g.TimedRounds with RoundEndedAt := now } },
         true, none)

/-- Embeds `revealedWord`: mask every position not in `indices`.  The Go
bound check on each index is subsumed by matching positions that actually
occur in the word. -/
def revealedWord (word : String) (indices : List Int) : String :=
  if word = "" then ""
  else String.mk (word.data.enum.map
    (fun ic => if indices.contains (ic.1 : Int) then ic.2 else '_'))

/-- Embeds `PlayerInfo`. -/
structure PlayerInfo where
  ID : String
  Name : String
  IsExplainer : Bool
deriving DecidableEq, Repr

/-- Embeds `ScoreEntry`. -/
structure ScoreEntry where
  Name : String
  Points : Int
deriving DecidableEq, Repr

/-- The `sort.Slice` comparator on scores: points descending, name
ascending on ties (the Go comparator is written with `!=` first, which is
the same ordering). -/
def scoreLess (a b : ScoreEntry) : Bool :=
  if a.Points == b.Points then strLtb a.Name b.Name else decide (b.Points < a.Points)

/-- Embeds the `Snapshot` struct. -/
structure Snapshot where
  ID : String
  Status : String
  CurrentRound : Int
  Rounds : Int
  RoundDuration : Int
  RoundStarted : Int
  RoundEndedAt : Int
  NextRoundAt : Int
  WordLength : Int
  RevealedWord : String
  Word : String
  ExplainerID : String
  ExplainerName : String
  RoundEmojis : List String
  Canvas : List CanvasItem
  Players : List PlayerInfo
  Scores : List ScoreEntry
  RoundWinnerName : String
  WinnerName : String
  IsExplainer : Bool
  IsGuesser : Bool
deriving DecidableEq, Repr

/-- Embeds `Game.Snapshot`.  Note: unlike the store variant, this method
calls `g.TimedRounds.Advance(now)` directly (not the game-level
`advanceIfNeededLocked`), then `RevealLettersIfNeeded`; the (possibly
modified) game is returned along with the view. -/
def Game.Snapshot (g0 : Game) (now : Int) (playerID : String) (pick : Nat) :
    Snapshot × Game :=
  let g1 := { g0 with TimedRounds := (g0.TimedRounds.Advance now).1 }
  let g := (g1.RevealLettersIfNeeded now pick).1
  let players := g.Players.map (fun kv =>
    { ID := kv.2.ID, Name := kv.2.Username,
      IsExplainer := kv.2.ID == g.ExplainerID : PlayerInfo })
  let scores := sortBy scoreLess (g.Players.map
    (fun kv => { Name := kv.2.Username, Points := kv.2.Points : ScoreEntry }))
  let explainerName :=
    match g.Players.lookup g.ExplainerID with
    | some p => p.Username
    | none => ""
  let roundWinnerName :=
    match g.Players.lookup g.RoundWinnerID with
    | some p => p.Username
    | none => ""
  let winnerName :=
    if g.Status = StatusFinished ∧ scores.length ≠ 0 then
      (scores.headD { Name := "", Points := 0 }).Name
    else ""
  let nextRoundAt :=
    if g.TimedRounds.RoundEndedAt ≠ 0 then g.TimedRounds.RoundEndedAt + g.TimedRounds.Cooldown
    else 0
  let wordForView := if playerID = g.ExplainerID then g.Word else ""
  let revealed := if g.RoundWinnerID ≠ "" then g.Word else revealedWord g.Word g.RevealedIndices
  ({ ID := g.ID, Status := g.Status, CurrentRound := g.TimedRounds.CurrentRound,
     Rounds := g.TimedRounds.Rounds, RoundDuration := g.TimedRounds.Duration,
     RoundStarted := g.TimedRounds.RoundStarted, RoundEndedAt := g.TimedRounds.RoundEndedAt,
     NextRoundAt := nextRoundAt, WordLength := (g.Word.length : Int),
     RevealedWord := revealed, Word := wordForView, ExplainerID := g.ExplainerID,
     ExplainerName := explainerName, RoundEmojis := g.RoundEmojis, Canvas := g.Canvas,
     Players := players, Scores := scores, RoundWinnerName := roundWinnerName,
     WinnerName := winnerName,
     IsExplainer := playerID == g.ExplainerID,
     IsGuesser := (playerID != "") && (playerID != g.ExplainerID) }, g)

end explain

/-! Concrete sample states used to instantiate the theorems below. -/

/-- A live round: round 1 of 2, started at 100, 50 long, cooldown 20. -/
def sampleTimedLive : realtime.TimedRounds :=
  { Duration := 50, Cooldown := 20, Rounds := 2, CurrentRound := 1,
    RoundStarted := 100, RoundEndedAt := 0 }

/-- An unscramble game in a live round with two players. -/
def sampleStoreGame : game.Game :=
  { ID := "room1", CreatedAt := 0, TimedRounds := sampleTimedLive,
    RoundData := [{ Word := "apple", Scrambled := "pplea" },
                  { Word := "banjo", Scrambled := "najob" }],
    Status := game.StatusInProgress, Lang := "en",
    RoundWinnerID := "", RoundSolvedAt := 0, OwnerID := "ann",
    Players := [("ann", { ID := "ann", Username := "ann", JoinedAt := 1,
                          Points := 4, Progress := 0 }),
                ("bob", { ID := "bob", Username := "bob", JoinedAt := 2,
                          Points := 2, Progress := 0 })] }

/-- The same unscramble game with round 1 already ended by timeout. -/
def sampleStoreCooldown : game.Game :=
  { sampleStoreGame with TimedRounds := { sampleTimedLive with RoundEndedAt := 150 } }

/-- A finished unscramble game. -/
def sampleStoreFinished : game.Game :=
  { sampleStoreGame with Status := game.StatusFinished,
                         TimedRounds := { sampleTimedLive with CurrentRound := 2,
                                                               RoundEndedAt := 250,
                                                               RoundStarted := 180 } }

/-- An explain game in a live round with three players; "ex" explains. -/
def sampleExplainGame : explain.Game :=
  { ID := "room2", CreatedAt := 0, TimedRounds := sampleTimedLive,
    RoundData := [{ Word := "apple", Emojis := [] },
                  { Word := "banjo", Emojis := [] }],
    Status := explain.StatusInProgress, Lang := "en", OwnerID := "ex",
    Players := [("bob", { ID := "bob", Username := "bob", JoinedAt := 2, Points := 5 }),
                ("cara", { ID := "cara", Username := "cara", JoinedAt := 3, Points := 1 }),
                ("ex", { ID := "ex", Username := "erin", JoinedAt := 1, Points := 3 })],
    Word := "apple", ExplainerID := "ex", Canvas := [], RevealedIndices := [],
    RoundEmojis := [], EmojisPerRound := 8, RoundWinnerID := "", RoundSolvedAt := 0 }

/-- The same explain game with round 1 already ended by timeout. -/
def sampleExplainCooldown : explain.Game :=
  { sampleExplainGame with TimedRounds := { sampleTimedLive with RoundEndedAt := 150 } }

/-- An explain game in its final round (1 of 1), round ended at 150,
whose cooldown (20) has elapsed by time 200. -/
def sampleExplainFinal : explain.Game :=
  { sampleExplainGame with
      TimedRounds := { Duration := 50, Cooldown := 20, Rounds := 1, CurrentRound := 1,
                       RoundStarted := 100, RoundEndedAt := 150 } }

/-- A finished explain game. -/
def sampleExplainFinished : explain.Game :=
  { sampleExplainGame with Status := explain.StatusFinished }

theorem lookup_updateAssoc_self {β : Type} (ps : List (String × β)) (id : String)
    (f : β → β) : (updateAssoc ps id f).lookup id = (ps.lookup id).map f := by
  induction ps with
  | nil => rfl
  | cons kv rest ih =>
      obtain ⟨k, v⟩ := kv
      simp only [updateAssoc, List.map_cons] at ih ⊢
      cases hq : (k == id)
      · have hq2 : (id == k) = false := by
          rw [beq_eq_false_iff_ne] at hq ⊢
          exact fun he => hq he.symm
        simp only [List.lookup, hq, hq2]
        exact ih
      · have he : k = id := by rwa [beq_iff_eq] at hq
        subst he
        simp [List.lookup, hq]

theorem lookup_updateAssoc_other {β : Type} (ps : List (String × β)) (id id2 : String)
    (f : β → β) (h : id2 ≠ id) :
    (updateAssoc ps id f).lookup id2 = ps.lookup id2 := by
  induction ps with
  | nil => rfl
  | cons kv rest ih =>
      obtain ⟨k, v⟩ := kv
      simp only [updateAssoc, List.map_cons] at ih ⊢
      cases hq : (k == id)
      · simp only [List.lookup, hq]
        cases hq3 : (id2 == k)
        · simp only [hq3]
          exact ih
        · simp only [hq3]
      · have he : k = id := by rwa [beq_iff_eq] at hq
        subst he
        have h2 : (id2 == k) = false := beq_eq_false_iff_ne.mpr h
        simp only [List.lookup, hq, h2]
        exact ih

namespace realtime

theorem advance_not_started (t : TimedRounds) (now : Int)
    (h : t.RoundStarted = 0) : t.Advance now = (t, false, false) := by
  simp [TimedRounds.Advance, h]

theorem advance_cooldown_gate (t : TimedRounds) (now : Int)
    (hs : t.RoundStarted ≠ 0) (he : t.RoundEndedAt ≠ 0)
    (hc : now < t.RoundEndedAt + t.Cooldown) :
    t.Advance now = (t, false, false) := by
  simp [TimedRounds.Advance, hs, he, hc]

theorem advance_currentRound_mono (t : TimedRounds) (now : Int) :
    t.CurrentRound ≤ ((t.Advance now).1).CurrentRound := by
  simp only [TimedRounds.Advance]
  split_ifs
  · exact le_refl _
  · exact le_refl _
  · exact le_refl _
  · exact le_refl _
  · exact le_refl _
  · show t.CurrentRound ≤ t.CurrentRound + 1
    omega

/-- The invariant maintained by `Start`-then-`Advance` sequences. -/
theorem reachable_inv (dur cool rounds start0 : Int) (t : TimedRounds) (last : Int)
    (hrounds : 1 ≤ rounds) (hs0 : 0 < start0)
    (h : TimedRounds.Reachable dur cool rounds start0 t last) :
    t.Duration = dur ∧ t.Cooldown = cool ∧ t.Rounds = rounds ∧
    start0 ≤ last ∧ 0 < t.RoundStarted ∧
    1 ≤ t.CurrentRound ∧ t.CurrentRound ≤ rounds ∧
    (t.RoundEndedAt = 0 ∨ t.RoundEndedAt = t.RoundStarted + t.Duration) := by
  induction h with
  | start =>
      exact ⟨rfl, rfl, rfl, le_refl _, hs0, le_refl _, hrounds, Or.inl rfl⟩
  | step t last now hre hle ih =>
      obtain ⟨hd, hc, hr, hl, hrs, h1, h2, hends⟩ := ih
      have hlast : start0 ≤ now := le_trans hl hle
      simp only [TimedRounds.Advance]
      split_ifs with g1 g2 g3 g4 g5
      · exact ⟨hd, hc, hr, hlast, hrs, h1, h2, hends⟩
      · exact ⟨hd, hc, hr, hlast, hrs, h1, h2, Or.inr rfl⟩
      · exact ⟨hd, hc, hr, hlast, hrs, h1, h2, hends⟩
      · exact ⟨hd, hc, hr, hlast, hrs, h1, h2, hends⟩
      · exact ⟨hd, hc, hr, hlast, hrs, h1, h2, hends⟩
      · refine ⟨hd, hc, hr, hlast, ?_, ?_, ?_, Or.inl rfl⟩
        · show 0 < now
          omega
        · show 1 ≤ t.CurrentRound + 1
          omega
        · show t.CurrentRound + 1 ≤ rounds
          omega

theorem advance_live_noop (t : TimedRounds) (now : Int)
    (hs : t.RoundStarted ≠ 0) (he : t.RoundEndedAt = 0)
    (h : ¬ (t.RoundStarted + t.Duration < now)) :
    t.Advance now = (t, false, false) := by
  simp [TimedRounds.Advance, hs, he, h]

end realtime

/-- C4 counterexample: with `RoundStarted = 100`, `Duration = 50` and
`now = 150` we have `now ≥ RoundStarted + Duration`, yet `Advance`
returns `(false, false)` and changes nothing — the code transitions only
strictly after the deadline (`now.After(roundEnd)`), refuting the claim
as stated. -/
theorem spec_c4_cex :
    let t : realtime.TimedRounds :=
      { Duration := 50, Cooldown := 5, Rounds := 2, CurrentRound := 1,
        RoundStarted := 100, RoundEndedAt := 0 }
    (100 + 50 ≤ (150 : Int)) ∧ t.Advance 150 = (t, false, false) := by
  exact ⟨by decide, by decide⟩

/-- C4 (amended): for a round-active `TimedRounds` value, `Advance(now)`
with `now` strictly after `RoundStarted + Duration` transitions to
cooling-down, setting `RoundEndedAt` to exactly the deadline and
returning `advanced = true`; with `now ≤ RoundStarted + Duration` it
returns `(false, false)` and changes nothing. -/
theorem spec_c4 (t : realtime.TimedRounds) (now : Int)
    (hs : t.RoundStarted ≠ 0) (he : t.RoundEndedAt = 0) :
    (t.RoundStarted + t.Duration < now →
      t.Advance now =
        ({ t with RoundEndedAt := t.RoundStarted + t.Duration }, true, false)) ∧
    (now ≤ t.RoundStarted + t.Duration → t.Advance now = (t, false, false)) := by
  constructor
  · intro h
    simp [realtime.TimedRounds.Advance, hs, he, h]
  · intro h
    exact realtime.advance_live_noop t now hs he (not_lt.mpr h)

theorem spec_c4_witness :
    (realtime.TimedRounds.Advance
      { Duration := 50, Cooldown := 5, Rounds := 2, CurrentRound := 1,
        RoundStarted := 100, RoundEndedAt := 0 } 151 =
      ({ Duration := 50, Cooldown := 5, Rounds := 2, CurrentRound := 1,
         RoundStarted := 100, RoundEndedAt := 150 }, true, false)) ∧
    (realtime.TimedRounds.Advance
      { Duration := 50, Cooldown := 5, Rounds := 2, CurrentRound := 1,
        RoundStarted := 100, RoundEndedAt := 0 } 150 =
      ({ Duration := 50, Cooldown := 5, Rounds := 2, CurrentRound := 1,
         RoundStarted := 100, RoundEndedAt := 0 }, false, false)) := by
  constructor
  · exact (spec_c4
      { Duration := 50, Cooldown := 5, Rounds := 2, CurrentRound := 1,
        RoundStarted := 100, RoundEndedAt := 0 } 151 (by decide) rfl).1 (by decide)
  · exact (spec_c4
      { Duration := 50, Cooldown := 5, Rounds := 2, CurrentRound := 1,
        RoundStarted := 100, RoundEndedAt := 0 } 150 (by decide) rfl).2 (by decide)

/-- C5 counterexample: round 1 of 2, `Duration = 50`, `Cooldown = 5`,
started at 100.  At `now = 200` (long past deadline and cooldown) the
first `Advance` performs the round-end transition `(true, false)`, and
the *repeated* call with the same `now` performs another transition
`(true, false)` incrementing `CurrentRound` — not the claimed stable
`(false, false)` / `(true, true)`. -/
theorem spec_c5_cex :
    let t : realtime.TimedRounds :=
      { Duration := 50, Cooldown := 5, Rounds := 2, CurrentRound := 1,
        RoundStarted := 100, RoundEndedAt := 0 }
    (t.Advance 200).2 = (true, false) ∧
    (((t.Advance 200).1).Advance 200).2 = (true, false) ∧
    ((t.Advance 200).1).CurrentRound = 1 ∧
    ((((t.Advance 200).1).Advance 200).1).CurrentRound = 2 := by
  exact ⟨by decide, by decide, by decide, by decide⟩

/-- C5 (amended): a repeated `Advance(now)` is stable provided the first
transition did not already leave its successor due at the same `now`:
after a round-end transition with `now` still inside the cooldown window
(and a deadline distinct from the zero time), and after a round-start
transition (with non-negative duration), the second call returns
`(false, false)` and changes nothing; in the terminal state both calls
return `(true, true)` and change nothing.  If the cooldown has already
elapsed at `now`, the second call legitimately performs the *next*
transition instead. -/
theorem spec_c5 (t : realtime.TimedRounds) (now : Int) :
    (t.RoundEndedAt = 0 ∧ t.RoundStarted + t.Duration < now ∧
       now < t.RoundStarted + t.Duration + t.Cooldown ∧
       t.RoundStarted + t.Duration ≠ 0 →
       ((t.Advance now).1).Advance now = ((t.Advance now).1, false, false)) ∧
    (t.RoundStarted ≠ 0 ∧ t.RoundEndedAt ≠ 0 ∧ t.RoundEndedAt + t.Cooldown ≤ now ∧
       t.CurrentRound < t.Rounds ∧ 0 ≤ t.Duration →
       ((t.Advance now).1).Advance now = ((t.Advance now).1, false, false)) ∧
    (t.RoundStarted ≠ 0 ∧ t.RoundEndedAt ≠ 0 ∧ t.RoundEndedAt + t.Cooldown ≤ now ∧
       t.Rounds ≤ t.CurrentRound →
       t.Advance now = (t, true, true) ∧ ((t.Advance now).1).Advance now = (t, true, true)) := by
  refine ⟨?_, ?_, ?_⟩
  · rintro ⟨he, h1, h2, h3⟩
    by_cases hs : t.RoundStarted = 0
    · rw [realtime.advance_not_started t now hs]
      exact realtime.advance_not_started t now hs
    · have hfirst : t.Advance now =
          ({ t with RoundEndedAt := t.RoundStarted + t.Duration }, true, false) :=
        (spec_c4 t now hs he).1 h1
      rw [hfirst]
      exact realtime.advance_cooldown_gate _ now hs h3 (by simp only; omega)
  · rintro ⟨hs, he, hcool, hcur, hdur⟩
    have hfirst : t.Advance now =
        ({ t with CurrentRound := t.CurrentRound + 1, RoundStarted := now,
                  RoundEndedAt := 0 }, true, false) := by
      simp [realtime.TimedRounds.Advance, hs, he, not_lt.mpr hcool, not_le.mpr hcur]
    rw [hfirst]
    by_cases hz : now = 0
    · exact realtime.advance_not_started _ now hz
    · exact realtime.advance_live_noop _ now hz rfl (by simp only; omega)
  · rintro ⟨hs, he, hcool, hterm⟩
    have hfirst : t.Advance now = (t, true, true) := by
      simp [realtime.TimedRounds.Advance, hs, he, not_lt.mpr hcool, hterm]
    refine ⟨hfirst, ?_⟩
    rw [hfirst]
    exact hfirst

theorem spec_c5_witness :
    (realtime.TimedRounds.Advance
      (realtime.TimedRounds.Advance
        { Duration := 50, Cooldown := 5, Rounds := 2, CurrentRound := 1,
          RoundStarted := 100, RoundEndedAt := 0 } 151).1 151 =
      ((realtime.TimedRounds.Advance
        { Duration := 50, Cooldown := 5, Rounds := 2, CurrentRound := 1,
          RoundStarted := 100, RoundEndedAt := 0 } 151).1, false, false)) ∧
    (realtime.TimedRounds.Advance
      (realtime.TimedRounds.Advance
        { Duration := 50, Cooldown := 5, Rounds := 2, CurrentRound := 1,
          RoundStarted := 100, RoundEndedAt := 150 } 156).1 156 =
      ((realtime.TimedRounds.Advance
        { Duration := 50, Cooldown := 5, Rounds := 2, CurrentRound := 1,
          RoundStarted := 100, RoundEndedAt := 150 } 156).1, false, false)) ∧
    (realtime.TimedRounds.Advance
      { Duration := 50, Cooldown := 5, Rounds := 2, CurrentRound := 2,
        RoundStarted := 200, RoundEndedAt := 250 } 256 =
      ({ Duration := 50, Cooldown := 5, Rounds := 2, CurrentRound := 2,
         RoundStarted := 200, RoundEndedAt := 250 }, true, true)) := by
  refine ⟨?_, ?_, ?_⟩
  · exact (spec_c5
      { Duration := 50, Cooldown := 5, Rounds := 2, CurrentRound := 1,
        RoundStarted := 100, RoundEndedAt := 0 } 151).1 ⟨rfl, by decide, by decide, by decide⟩
  · exact (spec_c5
      { Duration := 50, Cooldown := 5, Rounds := 2, CurrentRound := 1,
        RoundStarted := 100, RoundEndedAt := 150 } 156).2.1
      ⟨by decide, by decide, by decide, by decide, by decide⟩
  · exact ((spec_c5
      { Duration := 50, Cooldown := 5, Rounds := 2, CurrentRound := 2,
        RoundStarted := 200, RoundEndedAt := 250 } 256).2.2
      ⟨by decide, by decide, by decide, by decide⟩).1

/-- C6 counterexample: for a round-active value whose deadline lies in
the past (`RoundStarted = 100`, `Duration = 50`, `now = 1000`),
`NextWake` returns the past deadline 150, not `now` — the clamp to `now`
exists only in the cooling-down branch, refuting the claim as stated. -/
theorem spec_c6_cex :
    let t : realtime.TimedRounds :=
      { Duration := 50, Cooldown := 5, Rounds := 2, CurrentRound := 1,
        RoundStarted := 100, RoundEndedAt := 0 }
    t.NextWake 1000 = (150, true) ∧ (150 : Int) < 1000 := by
  exact ⟨by decide, by decide⟩

/-- C6 (amended): `NextWake` reports `active = false` exactly when never
started.  For a started value it reports `active = true`; in the
round-active state it returns `RoundStarted + Duration` without clamping
(possibly in the past), while in the cooling-down state the result is
never before `now`, and equals `now` itself whenever
`RoundEndedAt + Cooldown` lies strictly in the past. -/
theorem spec_c6 (t : realtime.TimedRounds) (now : Int) :
    (t.RoundStarted = 0 → t.NextWake now = (0, false)) ∧
    (t.RoundStarted ≠ 0 →
      (t.NextWake now).2 = true ∧
      (t.RoundEndedAt = 0 → (t.NextWake now).1 = t.RoundStarted + t.Duration) ∧
      (t.RoundEndedAt ≠ 0 →
        now ≤ (t.NextWake now).1 ∧
        (t.RoundEndedAt + t.Cooldown < now → (t.NextWake now).1 = now))) := by
  constructor
  · intro hs
    simp [realtime.TimedRounds.NextWake, hs]
  · intro hs
    refine ⟨?_, ?_, ?_⟩
    · by_cases he : t.RoundEndedAt = 0
      · simp [realtime.TimedRounds.NextWake, hs, he]
      · by_cases hlt : t.RoundEndedAt + t.Cooldown < now <;>
          simp [realtime.TimedRounds.NextWake, hs, he, hlt]
    · intro he
      simp [realtime.TimedRounds.NextWake, hs, he]
    · intro he
      constructor
      · by_cases hlt : t.RoundEndedAt + t.Cooldown < now <;>
          simp [realtime.TimedRounds.NextWake, hs, he, hlt] <;> omega
      · intro hlt
        simp [realtime.TimedRounds.NextWake, hs, he, hlt]

theorem spec_c6_witness :
    (realtime.TimedRounds.NextWake
      { Duration := 50, Cooldown := 5, Rounds := 2, CurrentRound := 1,
        RoundStarted := 0, RoundEndedAt := 0 } 7 = (0, false)) ∧
    ((realtime.TimedRounds.NextWake
      { Duration := 50, Cooldown := 5, Rounds := 2, CurrentRound := 1,
        RoundStarted := 100, RoundEndedAt := 150 } 1000).1 = 1000) := by
  constructor
  · exact (spec_c6
      { Duration := 50, Cooldown := 5, Rounds := 2, CurrentRound := 1,
        RoundStarted := 0, RoundEndedAt := 0 } 7).1 rfl
  · exact (((spec_c6
      { Duration := 50, Cooldown := 5, Rounds := 2, CurrentRound := 1,
        RoundStarted := 100, RoundEndedAt := 150 } 1000).2 (by decide)).2.2
      (by decide)).2 (by decide)

/-- C9: every `TimedRounds` value reachable from the inert zero value
(configured with `rounds ≥ 1`) by one `Start` at a positive time and any
sequence of `Advance` calls at non-decreasing times satisfies: the
pre-`Start` value has `CurrentRound = 0`; afterwards `CurrentRound` stays
in `[1, Rounds]`; `RoundEndedAt` is either zero (round live) or exactly
the round deadline `RoundStarted + Duration` (set when the deadline is
crossed, hence at most once per round); and while cooling down every
`Advance` strictly before `RoundEndedAt + Cooldown` is a no-op — the
cooldown gate is measured from `RoundEndedAt`, not from when the timer
fires. -/
theorem spec_c9 (dur cool rounds start0 : Int) (t : realtime.TimedRounds) (last : Int)
    (h1 : 1 ≤ rounds) (h2 : 0 < start0)
    (hr : realtime.TimedRounds.Reachable dur cool rounds start0 t last) :
    ({ Duration := dur, Cooldown := cool, Rounds := rounds, CurrentRound := 0,
       RoundStarted := 0, RoundEndedAt := 0 } : realtime.TimedRounds).CurrentRound = 0 ∧
    1 ≤ t.CurrentRound ∧ t.CurrentRound ≤ t.Rounds ∧
    (t.RoundEndedAt = 0 ∨ t.RoundEndedAt = t.RoundStarted + t.Duration) ∧
    (∀ now2, t.RoundEndedAt ≠ 0 → now2 < t.RoundEndedAt + t.Cooldown →
      t.Advance now2 = (t, false, false)) := by
  obtain ⟨hd, hc, hrr, hl, hrs, hc1, hc2, hends⟩ :=
    realtime.reachable_inv dur cool rounds start0 t last h1 h2 hr
  refine ⟨rfl, hc1, ?_, hends, ?_⟩
  · rw [hrr]
    exact hc2
  · intro now2 hne hlt
    exact realtime.advance_cooldown_gate t now2 (by omega) hne hlt

theorem spec_c9_witness :
    1 ≤ (2 : Int) ∧ 0 < (100 : Int) ∧
    (1 ≤ (realtime.TimedRounds.Start
        { Duration := 50, Cooldown := 5, Rounds := 2, CurrentRound := 0,
          RoundStarted := 0, RoundEndedAt := 0 } 100).CurrentRound ∧
      (realtime.TimedRounds.Start
        { Duration := 50, Cooldown := 5, Rounds := 2, CurrentRound := 0,
          RoundStarted := 0, RoundEndedAt := 0 } 100).CurrentRound ≤
      (realtime.TimedRounds.Start
        { Duration := 50, Cooldown := 5, Rounds := 2, CurrentRound := 0,
          RoundStarted := 0, RoundEndedAt := 0 } 100).Rounds) := by
  refine ⟨by decide, by decide, ?_⟩
  have h := spec_c9 50 5 2 100
    (realtime.TimedRounds.Start
      { Duration := 50, Cooldown := 5, Rounds := 2, CurrentRound := 0,
        RoundStarted := 0, RoundEndedAt := 0 } 100) 100
    (by decide) (by decide) realtime.TimedRounds.Reachable.start
  exact ⟨h.2.1, h.2.2.1⟩

namespace game

theorem advanceIfNeededLocked_noop (g : Game) (now : Int)
    (h : g.TimedRounds.Advance now = (g.TimedRounds, false, false)) :
    g.advanceIfNeededLocked now = (g, false) := by
  unfold Game.advanceIfNeededLocked
  by_cases h0 : g.Status ≠ StatusInProgress ∨ g.TimedRounds.RoundStarted = 0
  · rw [if_pos h0]
  · rw [if_neg h0, h]
    rfl

theorem advanceIfNeededLocked_not_in_progress (g : Game) (now : Int)
    (h : g.Status ≠ StatusInProgress) :
    g.advanceIfNeededLocked now = (g, false) := by
  unfold Game.advanceIfNeededLocked
  rw [if_pos (Or.inl h)]

theorem submitGuess_accept (g : Game) (pid guess : String) (now : Int) (p : Player)
    (hst : g.Status = StatusInProgress)
    (hrs : g.TimedRounds.RoundStarted ≠ 0)
    (hadv : g.advanceIfNeededLocked now = (g, false))
    (hre : g.TimedRounds.RoundEndedAt = 0)
    (hw : g.RoundWinnerID = "")
    (hp : g.Players.lookup pid = some p)
    (hn : normalizeGuess guess = g.currentRoundDataLocked.Word)
    (hwne : g.currentRoundDataLocked.Word ≠ "") :
    g.SubmitGuess pid guess now =
      ({ g with Players := updateAssoc g.Players pid (fun q =>
                  { q with Points := q.Points +
                             (if now < g.TimedRounds.RoundStarted +
                                 Int.tdiv g.TimedRounds.Duration 2 then 2 else 1),
                           Progress := (g.currentRoundDataLocked.Word.length : Int) }),
                RoundWinnerID := pid, RoundSolvedAt := now,
                TimedRounds := { g.TimedRounds with RoundEndedAt := now } }, true, none) := by
  unfold Game.SubmitGuess
  simp only [hadv, hst, hrs, hre, hw, hp, hn, hwne]
  simp [hwne]

theorem submitGuess_round_over (g : Game) (pid guess : String) (now : Int)
    (hst : g.Status = StatusInProgress)
    (hrs : g.TimedRounds.RoundStarted ≠ 0)
    (hadv : g.advanceIfNeededLocked now = (g, false))
    (hre : g.TimedRounds.RoundEndedAt ≠ 0) :
    g.SubmitGuess pid guess now = (g, false, none) := by
  unfold Game.SubmitGuess
  simp only [hadv, hst, hrs, hre]
  simp [hre]

end game

namespace explain

theorem advanceNoop_explain (g : Game) (now : Int)
    (h : g.TimedRounds.Advance now = (g.TimedRounds, false, false)) :
    g.advanceIfNeededLocked now = (g, false) := by
  unfold Game.advanceIfNeededLocked
  by_cases h0 : g.Status ≠ StatusInProgress ∨ g.TimedRounds.RoundStarted = 0
  · rw [if_pos h0]
  · rw [if_neg h0, h]
    rfl

theorem advanceNotInProgress_explain (g : Game) (now : Int)
    (h : g.Status ≠ StatusInProgress) :
    g.advanceIfNeededLocked now = (g, false) := by
  unfold Game.advanceIfNeededLocked
  rw [if_pos (Or.inl h)]

theorem submitGuessAccept_explain (g : Game) (pid guess : String) (now : Int) (p : Player)
    (hst : g.Status = StatusInProgress)
    (hexp : pid ≠ g.ExplainerID)
    (hp : g.Players.lookup pid = some p)
    (hadv : g.advanceIfNeededLocked now = (g, false))
    (hw : g.RoundWinnerID = "")
    (hn : normalizeGuess guess = g.Word)
    (hwne : g.Word ≠ "") :
    g.SubmitGuess pid guess now =
      ({ g with Players := updateAssoc (updateAssoc g.Players pid (fun q =>
                  { q with Points := q.Points + guesserAward g.TimedRounds.Duration
                             (now - g.TimedRounds.RoundStarted) })) g.ExplainerID (fun q =>
                  { q with Points := q.Points + explainerAward g.TimedRounds.Duration
                             (now - g.TimedRounds.RoundStarted) }),
                RoundWinnerID := pid, RoundSolvedAt := now,
                TimedRounds := { g.TimedRounds with RoundEndedAt := now } }, true, none) := by
  unfold Game.SubmitGuess
  simp only [hadv, hst, hexp, hp, hw, hn, hwne]
  simp [hwne, hexp]

theorem submitGuess_already_won (g : Game) (pid guess : String) (now : Int) (p : Player)
    (hst : g.Status = StatusInProgress)
    (hexp : pid ≠ g.ExplainerID)
    (hp : g.Players.lookup pid = some p)
    (hadv : g.advanceIfNeededLocked now = (g, false))
    (hw2 : g.RoundWinnerID ≠ "") :
    g.SubmitGuess pid guess now = (g, false, none) := by
  unfold Game.SubmitGuess
  simp only [hadv, hst, hexp, hp, hw2]
  simp [hexp, hw2]

end explain

namespace explain

theorem guesserAward_no_time (d e : Int) (he : d ≤ e) : guesserAward d e = 1 := by
  unfold guesserAward ceilDiv
  have h0 : (if d - e < 0 then (0 : Int) else d - e) = 0 := by
    split <;> omega
  rw [h0]
  norm_num

theorem explainerAward_no_time (d e : Int) (he : d ≤ e) : explainerAward d e = 1 := by
  unfold explainerAward ceilDiv
  have h0 : (if d - e < 0 then (0 : Int) else d - e) = 0 := by
    split <;> omega
  rw [h0]
  norm_num

end explain

/-- C10: the two variants disagree on guesses during cooldown.  In the
explain variant, when the round ended by timeout (RoundEndedAt set, no
winner) and the cooldown has not yet elapsed, a correct guess is still
accepted: it returns `(true, nil)`, awards 1 point to the guesser and 1
to the explainer (no time remains), records the guesser as round winner
and overwrites `RoundEndedAt` with `now` (postponing the next round).
The unscramble variant rejects the same call with `(false, nil)` and
changes nothing, because any non-zero `RoundEndedAt` rejects guesses. -/
theorem spec_c10
    (e : explain.Game) (g : game.Game)
    (pid guess pid2 guess2 : String) (p pex : explain.Player) (now : Int)
    (hst : e.Status = explain.StatusInProgress)
    (hexp : pid ≠ e.ExplainerID)
    (hp : e.Players.lookup pid = some p)
    (hpe : e.Players.lookup e.ExplainerID = some pex)
    (hrs : e.TimedRounds.RoundStarted ≠ 0)
    (hre : e.TimedRounds.RoundEndedAt ≠ 0)
    (hw : e.RoundWinnerID = "")
    (hcool : now < e.TimedRounds.RoundEndedAt + e.TimedRounds.Cooldown)
    (hn : normalizeGuess guess = e.Word)
    (hwne : e.Word ≠ "")
    (hdur : 0 < e.TimedRounds.Duration)
    (hlate : e.TimedRounds.RoundStarted + e.TimedRounds.Duration ≤ now)
    (hgst : g.Status = game.StatusInProgress)
    (hgrs : g.TimedRounds.RoundStarted ≠ 0)
    (hgre : g.TimedRounds.RoundEndedAt ≠ 0)
    (hgcool : now < g.TimedRounds.RoundEndedAt + g.TimedRounds.Cooldown) :
    ((e.SubmitGuess pid guess now).2 = (true, none) ∧
     (e.SubmitGuess pid guess now).1.Players.lookup pid =
       some { p with Points := p.Points + 1 } ∧
     (e.SubmitGuess pid guess now).1.Players.lookup e.ExplainerID =
       some { pex with Points := pex.Points + 1 } ∧
     (e.SubmitGuess pid guess now).1.TimedRounds.RoundEndedAt = now ∧
     (e.SubmitGuess pid guess now).1.RoundWinnerID = pid) ∧
    g.SubmitGuess pid2 guess2 now = (g, false, none) := by
  have hadv : e.advanceIfNeededLocked now = (e, false) :=
    explain.advanceNoop_explain e now
      (realtime.advance_cooldown_gate _ now hrs hre hcool)
  have hacc := explain.submitGuessAccept_explain e pid guess now p hst hexp hp hadv hw hn hwne
  have hg1 : explain.guesserAward e.TimedRounds.Duration
      (now - e.TimedRounds.RoundStarted) = 1 :=
    explain.guesserAward_no_time _ _ (by omega)
  have he1 : explain.explainerAward e.TimedRounds.Duration
      (now - e.TimedRounds.RoundStarted) = 1 :=
    explain.explainerAward_no_time _ _ (by omega)
  constructor
  · rw [hacc]
    dsimp only
    refine ⟨rfl, ?_, ?_, rfl, rfl⟩
    · rw [lookup_updateAssoc_other _ e.ExplainerID pid _ hexp,
          lookup_updateAssoc_self, hp]
      simp [hg1]
    · rw [lookup_updateAssoc_self,
          lookup_updateAssoc_other _ pid e.ExplainerID _ (fun hh => hexp hh.symm), hpe]
      simp [he1]
  · have hgadv : g.advanceIfNeededLocked now = (g, false) :=
      game.advanceIfNeededLocked_noop g now
        (realtime.advance_cooldown_gate _ now hgrs hgre hgcool)
    exact game.submitGuess_round_over g pid2 guess2 now hgst hgrs hgadv hgre

theorem spec_c10_witness :
    ((sampleExplainCooldown.SubmitGuess "bob" " Apple " 160).2 = (true, none) ∧
     (sampleExplainCooldown.SubmitGuess "bob" " Apple " 160).1.Players.lookup "bob" =
       some { ID := "bob", Username := "bob", JoinedAt := 2, Points := 6 } ∧
     (sampleExplainCooldown.SubmitGuess "bob" " Apple " 160).1.Players.lookup "ex" =
       some { ID := "ex", Username := "erin", JoinedAt := 1, Points := 4 } ∧
     (sampleExplainCooldown.SubmitGuess "bob" " Apple " 160).1.TimedRounds.RoundEndedAt = 160 ∧
     (sampleExplainCooldown.SubmitGuess "bob" " Apple " 160).1.RoundWinnerID = "bob") ∧
    sampleStoreCooldown.SubmitGuess "bob" "apple" 160 = (sampleStoreCooldown, false, none) := by
  have h := spec_c10 sampleExplainCooldown sampleStoreCooldown
    "bob" " Apple " "bob" "apple"
    { ID := "bob", Username := "bob", JoinedAt := 2, Points := 5 }
    { ID := "ex", Username := "erin", JoinedAt := 1, Points := 3 } 160
    rfl (by decide) (by decide) (by decide) (by decide) (by decide) rfl (by decide)
    (by decide) (by decide) (by decide) (by decide)
    rfl (by decide) (by decide) (by decide)
  exact h

/-- C1: in both variants, for an in-progress game with a live round, the
first `SubmitGuess` whose normalized text (trim, lowercase, strip
internal spaces) equals the round's secret word returns `(true, nil)`
and records the submitting player as round winner; after it, any further
`SubmitGuess` for the same round — by any eligible player, even with the
correct word — returns `(false, nil)` and leaves the whole game state
(in particular every score) unchanged, so each round has at most one
winner and one scoring event. -/
theorem spec_c1
    (g : game.Game) (pid text : String) (now now2 : Int) (p : game.Player)
    (e : explain.Game) (epid etext : String) (enow enow2 : Int) (ep : explain.Player)
    (hst : g.Status = game.StatusInProgress)
    (hrs : g.TimedRounds.RoundStarted ≠ 0)
    (hre : g.TimedRounds.RoundEndedAt = 0)
    (hdl : ¬ (g.TimedRounds.RoundStarted + g.TimedRounds.Duration < now))
    (hw : g.RoundWinnerID = "")
    (hp : g.Players.lookup pid = some p)
    (hn : normalizeGuess text = g.currentRoundDataLocked.Word)
    (hwne : g.currentRoundDataLocked.Word ≠ "")
    (hnow : now ≠ 0)
    (hcool2 : now2 < now + g.TimedRounds.Cooldown)
    (hest : e.Status = explain.StatusInProgress)
    (heexp : epid ≠ e.ExplainerID)
    (hepne : epid ≠ "")
    (hep : e.Players.lookup epid = some ep)
    (hers : e.TimedRounds.RoundStarted ≠ 0)
    (here : e.TimedRounds.RoundEndedAt = 0)
    (hedl : ¬ (e.TimedRounds.RoundStarted + e.TimedRounds.Duration < enow))
    (hew : e.RoundWinnerID = "")
    (hen : normalizeGuess etext = e.Word)
    (hewne : e.Word ≠ "")
    (henow : enow ≠ 0)
    (hecool : enow2 < enow + e.TimedRounds.Cooldown) :
    ((g.SubmitGuess pid text now).2 = (true, none) ∧
     (g.SubmitGuess pid text now).1.RoundWinnerID = pid ∧
     (∀ pid2 text2, ((g.SubmitGuess pid text now).1).SubmitGuess pid2 text2 now2 =
        ((g.SubmitGuess pid text now).1, false, none))) ∧
    ((e.SubmitGuess epid etext enow).2 = (true, none) ∧
     (e.SubmitGuess epid etext enow).1.RoundWinnerID = epid ∧
     (∀ pid2 text2 p2, pid2 ≠ e.ExplainerID → e.Players.lookup pid2 = some p2 →
        ((e.SubmitGuess epid etext enow).1).SubmitGuess pid2 text2 enow2 =
          ((e.SubmitGuess epid etext enow).1, false, none))) := by
  have hadv : g.advanceIfNeededLocked now = (g, false) :=
    game.advanceIfNeededLocked_noop g now (realtime.advance_live_noop _ now hrs hre hdl)
  have hacc := game.submitGuess_accept g pid text now p hst hrs hadv hre hw hp hn hwne
  have headv : e.advanceIfNeededLocked enow = (e, false) :=
    explain.advanceNoop_explain e enow
      (realtime.advance_live_noop _ enow hers here hedl)
  have heacc := explain.submitGuessAccept_explain e epid etext enow ep hest heexp hep headv hew hen hewne
  refine ⟨⟨?_, ?_, ?_⟩, ?_, ?_, ?_⟩
  · rw [hacc]
  · rw [hacc]
  · intro pid2 text2
    rw [hacc]
    dsimp only
    apply game.submitGuess_round_over
    · exact hst
    · exact hrs
    · exact game.advanceIfNeededLocked_noop _ now2
        (realtime.advance_cooldown_gate _ now2 hrs hnow hcool2)
    · exact hnow
  · rw [heacc]
  · rw [heacc]
  · intro pid2 text2 p2 hne2 hp2
    rw [heacc]
    dsimp only
    have hlk : ∃ q, (updateAssoc (updateAssoc e.Players epid (fun q =>
        { q with Points := q.Points + explain.guesserAward e.TimedRounds.Duration
                   (enow - e.TimedRounds.RoundStarted) })) e.ExplainerID (fun q =>
        { q with Points := q.Points + explain.explainerAward e.TimedRounds.Duration
                   (enow - e.TimedRounds.RoundStarted) })).lookup pid2 = some q := by
      rw [lookup_updateAssoc_other _ e.ExplainerID pid2 _ hne2]
      by_cases hq : pid2 = epid
      · subst hq
        rw [lookup_updateAssoc_self, hp2]
        exact ⟨_, rfl⟩
      · rw [lookup_updateAssoc_other _ epid pid2 _ hq, hp2]
        exact ⟨p2, rfl⟩
    obtain ⟨q, hq⟩ := hlk
    apply explain.submitGuess_already_won _ pid2 text2 enow2 q
    · exact hest
    · exact hne2
    · exact hq
    · exact explain.advanceNoop_explain _ enow2
        (realtime.advance_cooldown_gate _ enow2 hers henow hecool)
    · exact hepne

theorem spec_c1_witness :
    ((sampleStoreGame.SubmitGuess "bob" " APPLE" 120).2 = (true, none) ∧
     (sampleStoreGame.SubmitGuess "bob" " APPLE" 120).1.RoundWinnerID = "bob" ∧
     ((sampleStoreGame.SubmitGuess "bob" " APPLE" 120).1).SubmitGuess "ann" "apple" 130 =
       ((sampleStoreGame.SubmitGuess "bob" " APPLE" 120).1, false, none)) ∧
    ((sampleExplainGame.SubmitGuess "bob" "ap ple" 120).2 = (true, none) ∧
     (sampleExplainGame.SubmitGuess "bob" "ap ple" 120).1.RoundWinnerID = "bob" ∧
     ((sampleExplainGame.SubmitGuess "bob" "ap ple" 120).1).SubmitGuess "cara" "apple" 130 =
       ((sampleExplainGame.SubmitGuess "bob" "ap ple" 120).1, false, none)) := by
  have h := spec_c1 sampleStoreGame "bob" " APPLE" 120 130
    { ID := "bob", Username := "bob", JoinedAt := 2, Points := 2, Progress := 0 }
    sampleExplainGame "bob" "ap ple" 120 130
    { ID := "bob", Username := "bob", JoinedAt := 2, Points := 5 }
    rfl (by decide) rfl (by decide) rfl (by decide) (by decide) (by decide)
    (by decide) (by decide)
    rfl (by decide) (by decide) (by decide) (by decide) rfl (by decide) rfl
    (by decide) (by decide) (by decide) (by decide)
  exact ⟨⟨h.1.1, h.1.2.1, h.1.2.2 "ann" "apple"⟩,
         ⟨h.2.1, h.2.2.1, h.2.2.2 "cara" "apple"
            { ID := "cara", Username := "cara", JoinedAt := 3, Points := 1 }
            (by decide) (by decide)⟩⟩

namespace game

theorem advanceIfNeededLocked_mono (g : Game) (now : Int) :
    g.TimedRounds.CurrentRound ≤ ((g.advanceIfNeededLocked now).1).TimedRounds.CurrentRound := by
  unfold Game.advanceIfNeededLocked
  split_ifs with h0 h1 h2
  · exact le_refl _
  · exact realtime.advance_currentRound_mono _ now
  · exact realtime.advance_currentRound_mono _ now
  · exact realtime.advance_currentRound_mono _ now

theorem advanceIfNeededLocked_finished (g : Game) (now : Int)
    (h : g.Status = StatusFinished) : g.advanceIfNeededLocked now = (g, false) :=
  advanceIfNeededLocked_not_in_progress g now (by rw [h]; decide)

theorem snapshot_props (g : Game) (now : Int) :
    (g.Snapshot now).2 = (g.advanceIfNeededLocked now).1 ∧
    (g.Snapshot now).1.Status = (g.Snapshot now).2.Status ∧
    (g.Snapshot now).1.CurrentRound = (g.Snapshot now).2.TimedRounds.CurrentRound :=
  ⟨rfl, rfl, rfl⟩

end game

namespace explain

theorem revealLetters_preserves (g : Game) (now : Int) (pick : Nat) :
    ((g.RevealLettersIfNeeded now pick).1).TimedRounds = g.TimedRounds ∧
    ((g.RevealLettersIfNeeded now pick).1).Status = g.Status ∧
    ((g.RevealLettersIfNeeded now pick).1).Word = g.Word := by
  unfold Game.RevealLettersIfNeeded
  dsimp only
  split_ifs <;> exact ⟨rfl, rfl, rfl⟩

theorem snapshotProps_explain (g : Game) (now : Int) (pid : String) (pick : Nat) :
    (g.Snapshot now pid pick).1.Status = g.Status ∧
    (g.Snapshot now pid pick).2.Status = g.Status ∧
    (g.Snapshot now pid pick).1.CurrentRound = (g.Snapshot now pid pick).2.TimedRounds.CurrentRound ∧
    g.TimedRounds.CurrentRound ≤ (g.Snapshot now pid pick).2.TimedRounds.CurrentRound := by
  have hp := revealLetters_preserves
    { g with TimedRounds := (g.TimedRounds.Advance now).1 } now pick
  refine ⟨?_, ?_, rfl, ?_⟩
  · show ((({ g with TimedRounds := (g.TimedRounds.Advance now).1
            }).RevealLettersIfNeeded now pick).1).Status = g.Status
    rw [hp.2.1]
  · show ((({ g with TimedRounds := (g.TimedRounds.Advance now).1
            }).RevealLettersIfNeeded now pick).1).Status = g.Status
    rw [hp.2.1]
  · show g.TimedRounds.CurrentRound ≤
      ((({ g with TimedRounds := (g.TimedRounds.Advance now).1
         }).RevealLettersIfNeeded now pick).1).TimedRounds.CurrentRound
    rw [hp.1]
    exact realtime.advance_currentRound_mono _ now

end explain

/-- C3: with no mutating operation in between, two successive snapshots
at times `now1 < now2` report non-decreasing `CurrentRound`, and a
snapshot reporting status finished is never reverted by a later
snapshot — in both game variants (the second snapshot is taken on the
state returned by the first, which is how the Go methods mutate the
receiver). -/
theorem spec_c3 (g : game.Game) (e : explain.Game) (now1 now2 : Int) (pid : String)
    (pick1 pick2 : Nat) (h12 : now1 < now2) :
    ((g.Snapshot now1).1.CurrentRound ≤ (((g.Snapshot now1).2).Snapshot now2).1.CurrentRound ∧
     ((g.Snapshot now1).1.Status = game.StatusFinished →
       (((g.Snapshot now1).2).Snapshot now2).1.Status = game.StatusFinished)) ∧
    ((e.Snapshot now1 pid pick1).1.CurrentRound ≤
       (((e.Snapshot now1 pid pick1).2).Snapshot now2 pid pick2).1.CurrentRound ∧
     ((e.Snapshot now1 pid pick1).1.Status = explain.StatusFinished →
       (((e.Snapshot now1 pid pick1).2).Snapshot now2 pid pick2).1.Status =
         explain.StatusFinished)) := by
  constructor
  · constructor
    · show ((g.Snapshot now1).2).TimedRounds.CurrentRound ≤
        ((((g.Snapshot now1).2).advanceIfNeededLocked now2).1).TimedRounds.CurrentRound
      exact game.advanceIfNeededLocked_mono _ now2
    · intro hfin
      have hfin2 : ((g.Snapshot now1).2).Status = game.StatusFinished := hfin
      have hnoop := game.advanceIfNeededLocked_finished ((g.Snapshot now1).2) now2 hfin2
      show ((((g.Snapshot now1).2).advanceIfNeededLocked now2).1).Status = game.StatusFinished
      rw [hnoop]
      exact hfin2
  · constructor
    · have h1 := (explain.snapshotProps_explain ((e.Snapshot now1 pid pick1).2) now2 pid pick2).2.2
      have h2 := (explain.snapshotProps_explain e now1 pid pick1).2.2.1
      rw [h2, h1.1]
      exact h1.2
    · intro hfin
      have hfin2 : ((e.Snapshot now1 pid pick1).2).Status = explain.StatusFinished := by
        rw [(explain.snapshotProps_explain e now1 pid pick1).2.1,
            ← (explain.snapshotProps_explain e now1 pid pick1).1]
        exact hfin
      rw [(explain.snapshotProps_explain ((e.Snapshot now1 pid pick1).2) now2 pid pick2).1]
      exact hfin2

theorem spec_c3_witness :
    (100 : Int) < 200 ∧
    ((sampleStoreGame.Snapshot 100).1.CurrentRound ≤
      (((sampleStoreGame.Snapshot 100).2).Snapshot 200).1.CurrentRound) ∧
    ((sampleExplainGame.Snapshot 100 "bob" 0).1.CurrentRound ≤
      (((sampleExplainGame.Snapshot 100 "bob" 0).2).Snapshot 200 "bob" 0).1.CurrentRound) := by
  have h := spec_c3 sampleStoreGame sampleExplainGame 100 200 "bob" 0 0 (by decide)
  exact ⟨by decide, h.1.1, h.2.1⟩

/-- C2, code evaluated at the failing input: the explain variant's
`Snapshot` calls `TimedRounds.Advance` directly instead of the
game-level `AdvanceIfNeeded`.  On a final round whose cooldown has
elapsed (ended 150, cooldown 20, now 200) the snapshot still reports
status in_progress, while `AdvanceIfNeeded` at the same time reports
finished.  On a non-final round boundary (ended 150, now 171) the
snapshot reports the incremented round 2 but the per-round fields are
not reset: the state still carries round 1's word "apple" and explainer
"ex", whereas `AdvanceIfNeeded` loads round 2's word "banjo" and rotates
the explainer to "cara". -/
theorem spec_c2 :
    ((sampleExplainFinal.Snapshot 200 "bob" 0).1.Status = explain.StatusInProgress ∧
     (sampleExplainFinal.AdvanceIfNeeded 200).1.Status = explain.StatusFinished) ∧
    ((sampleExplainCooldown.Snapshot 171 "bob" 0).1.CurrentRound = 2 ∧
     ((sampleExplainCooldown.Snapshot 171 "bob" 0).2).Word = "apple" ∧
     ((sampleExplainCooldown.Snapshot 171 "bob" 0).2).ExplainerID = "ex" ∧
     ((sampleExplainCooldown.AdvanceIfNeeded 171).1).Word = "banjo" ∧
     ((sampleExplainCooldown.AdvanceIfNeeded 171).1).ExplainerID = "cara") := by
  exact ⟨⟨by decide, by decide⟩, by decide, by decide, by decide, by decide, by decide⟩

/-- C7 counterexample: `Restart` does leave status finished — on a
finished game it sets the status back to in_progress. -/
theorem spec_c7_cex :
    sampleStoreFinished.Status = game.StatusFinished ∧
    (sampleStoreFinished.Restart 300
      [{ Word := "crane", Scrambled := "necra" }]).Status = game.StatusInProgress := by
  exact ⟨by decide, by decide⟩

/-- C7 (amended): no public operation other than `Restart` leaves status
finished: on a finished game, `Start`, `SubmitGuess`, `UpdateProgress`,
`AdvanceIfNeeded` and `Snapshot` change nothing (in both variants), so
the only transitions are lobby → in_progress (`Start`), in_progress →
finished (`AdvanceIfNeeded` at the final cooldown), and
status → in_progress by `Restart`, which re-randomizes the round data
and zeroes scores from any status, including finished. -/
theorem spec_c7 (g : game.Game) (e : explain.Game)
    (pid text : String) (c now : Int) (rounds : List game.Round) (pick : Nat)
    (hg : g.Status = game.StatusFinished)
    (he : e.Status = explain.StatusFinished) :
    ((g.Start now).1 = g ∧
     g.SubmitGuess pid text now = (g, false, some "game not in progress") ∧
     g.UpdateProgress pid c now = g ∧
     g.AdvanceIfNeeded now = (g, false) ∧
     (g.Snapshot now).1.Status = game.StatusFinished ∧
     (g.Snapshot now).2 = g ∧
     (g.Restart now rounds).Status = game.StatusInProgress) ∧
    ((e.Start now).1 = e ∧
     e.SubmitGuess pid text now = (e, false, some "game not in progress") ∧
     e.AdvanceIfNeeded now = (e, false) ∧
     (e.Snapshot now pid pick).1.Status = explain.StatusFinished) := by
  have hgne : g.Status ≠ game.StatusInProgress := by rw [hg]; decide
  have hene : e.Status ≠ explain.StatusInProgress := by rw [he]; decide
  have hnoop : g.advanceIfNeededLocked now = (g, false) :=
    game.advanceIfNeededLocked_not_in_progress g now hgne
  have henoop : e.advanceIfNeededLocked now = (e, false) :=
    explain.advanceNotInProgress_explain e now hene
  refine ⟨⟨?_, ?_, ?_, ?_, ?_, ?_, rfl⟩, ?_, ?_, ?_, ?_⟩
  · unfold game.Game.Start
    rw [if_pos (by rw [hg]; decide)]
  · unfold game.Game.SubmitGuess
    rw [if_pos hgne]
  · unfold game.Game.UpdateProgress
    rw [if_pos hgne]
  · exact hnoop
  · show ((g.advanceIfNeededLocked now).1).Status = game.StatusFinished
    rw [hnoop]
    exact hg
  · show (g.advanceIfNeededLocked now).1 = g
    rw [hnoop]
  · unfold explain.Game.Start
    rw [if_pos (by rw [he]; decide)]
  · unfold explain.Game.SubmitGuess
    rw [if_pos hene]
  · exact henoop
  · rw [(explain.snapshotProps_explain e now pid pick).1]
    exact he

theorem spec_c7_witness :
    ((sampleStoreFinished.Start 300).1 = sampleStoreFinished ∧
     sampleStoreFinished.AdvanceIfNeeded 300 = (sampleStoreFinished, false) ∧
     (sampleStoreFinished.Snapshot 300).1.Status = game.StatusFinished ∧
     (sampleStoreFinished.Restart 300
       [{ Word := "crane", Scrambled := "necra" }]).Status = game.StatusInProgress) ∧
    ((sampleExplainFinished.Start 300).1 = sampleExplainFinished ∧
     (sampleExplainFinished.Snapshot 300 "bob" 0).1.Status = explain.StatusFinished) := by
  have h := spec_c7 sampleStoreFinished sampleExplainFinished "bob" "apple" 3 300
    [{ Word := "crane", Scrambled := "necra" }] 0 rfl rfl
  exact ⟨⟨h.1.1, h.1.2.2.2.1, h.1.2.2.2.2.1, h.1.2.2.2.2.2.2⟩, h.2.1, h.2.2.2.2⟩

namespace explain

theorem ceilDiv_mono (a b c : Int) (hc : 0 < c) (h : a ≤ b) :
    ceilDiv a c ≤ ceilDiv b c := by
  unfold ceilDiv
  have h2 : -b ≤ -a := by omega
  have h3 := Int.ediv_le_ediv hc h2
  omega

theorem clampOne_mono (a b : Int) (h : a ≤ b) :
    (if a < 1 then (1 : Int) else a) ≤ (if b < 1 then (1 : Int) else b) := by
  split_ifs <;> omega

theorem one_le_clampOne (a : Int) : 1 ≤ (if a < 1 then (1 : Int) else a) := by
  split_ifs <;> omega

theorem guesserAward_mono (d e1 e2 : Int) (hd : 0 < d) (h : e1 ≤ e2) :
    guesserAward d e2 ≤ guesserAward d e1 := by
  unfold guesserAward
  dsimp only
  have hrr : (if d - e2 < 0 then (0 : Int) else d - e2) ≤
      (if d - e1 < 0 then (0 : Int) else d - e1) := by
    split_ifs <;> omega
  exact clampOne_mono _ _ (ceilDiv_mono _ _ d hd (by omega))

theorem explainerAward_mono (d e1 e2 : Int) (hd : 0 < d) (h : e1 ≤ e2) :
    explainerAward d e2 ≤ explainerAward d e1 := by
  unfold explainerAward
  dsimp only
  have hrr : (if d - e2 < 0 then (0 : Int) else d - e2) ≤
      (if d - e1 < 0 then (0 : Int) else d - e1) := by
    split_ifs <;> omega
  exact clampOne_mono _ _ (ceilDiv_mono _ _ d hd (by omega))

theorem explainerAward_le_guesserAward (d e : Int) (hd : 0 < d) :
    explainerAward d e ≤ guesserAward d e := by
  unfold explainerAward guesserAward
  dsimp only
  have hr0 : 0 ≤ (if d - e < 0 then (0 : Int) else d - e) := by
    split_ifs <;> omega
  exact clampOne_mono _ _ (ceilDiv_mono _ _ d hd (by omega))

theorem one_le_guesserAward (d e : Int) : 1 ≤ guesserAward d e := by
  unfold guesserAward
  dsimp only
  exact one_le_clampOne _

theorem one_le_explainerAward (d e : Int) : 1 ≤ explainerAward d e := by
  unfold explainerAward
  dsimp only
  exact one_le_clampOne _

end explain

/-- C8: in the explain variant, for a round of positive duration, the
guesser award and the explainer award computed for a correct guess are
non-increasing functions of elapsed time, the guesser award dominates
the explainer award for the same submission, both are at least 1, and on
an accepted guess `SubmitGuess` adds exactly these awards to the
guesser's and the explainer's scores. -/
theorem spec_c8 (duration elapsed1 elapsed2 : Int)
    (e : explain.Game) (pid guess : String) (now : Int) (p pex : explain.Player)
    (hd : 0 < duration) (h12 : elapsed1 ≤ elapsed2)
    (hst : e.Status = explain.StatusInProgress)
    (hexp : pid ≠ e.ExplainerID)
    (hp : e.Players.lookup pid = some p)
    (hpe : e.Players.lookup e.ExplainerID = some pex)
    (hrs : e.TimedRounds.RoundStarted ≠ 0)
    (hre : e.TimedRounds.RoundEndedAt = 0)
    (hdl : ¬ (e.TimedRounds.RoundStarted + e.TimedRounds.Duration < now))
    (hw : e.RoundWinnerID = "")
    (hn : normalizeGuess guess = e.Word)
    (hwne : e.Word ≠ "") :
    explain.guesserAward duration elapsed2 ≤ explain.guesserAward duration elapsed1 ∧
    explain.explainerAward duration elapsed2 ≤ explain.explainerAward duration elapsed1 ∧
    explain.explainerAward duration elapsed1 ≤ explain.guesserAward duration elapsed1 ∧
    1 ≤ explain.guesserAward duration elapsed1 ∧
    1 ≤ explain.explainerAward duration elapsed1 ∧
    (e.SubmitGuess pid guess now).1.Players.lookup pid =
      some { p with Points := p.Points + explain.guesserAward e.TimedRounds.Duration (now - e.TimedRounds.RoundStarted) } ∧
    (e.SubmitGuess pid guess now).1.Players.lookup e.ExplainerID =
      some { pex with Points := pex.Points + explain.explainerAward e.TimedRounds.Duration (now - e.TimedRounds.RoundStarted) } := by
  have hadv : e.advanceIfNeededLocked now = (e, false) :=
    explain.advanceNoop_explain e now
      (realtime.advance_live_noop _ now hrs hre hdl)
  have hacc := explain.submitGuessAccept_explain e pid guess now p hst hexp hp hadv hw hn hwne
  refine ⟨explain.guesserAward_mono duration elapsed1 elapsed2 hd h12,
          explain.explainerAward_mono duration elapsed1 elapsed2 hd h12,
          explain.explainerAward_le_guesserAward duration elapsed1 hd,
          explain.one_le_guesserAward duration elapsed1,
          explain.one_le_explainerAward duration elapsed1, ?_, ?_⟩
  · rw [hacc]
    dsimp only
    rw [lookup_updateAssoc_other _ e.ExplainerID pid _ hexp,
        lookup_updateAssoc_self, hp]
    rfl
  · rw [hacc]
    dsimp only
    rw [lookup_updateAssoc_self,
        lookup_updateAssoc_other _ pid e.ExplainerID _ (fun hh => hexp hh.symm), hpe]
    rfl

theorem spec_c8_witness :
    explain.guesserAward 50 30 ≤ explain.guesserAward 50 20 ∧
    explain.explainerAward 50 30 ≤ explain.explainerAward 50 20 ∧
    explain.explainerAward 50 20 ≤ explain.guesserAward 50 20 ∧
    1 ≤ explain.guesserAward 50 20 ∧
    1 ≤ explain.explainerAward 50 20 ∧
    (sampleExplainGame.SubmitGuess "bob" "apple" 120).1.Players.lookup "bob" =
      some { ID := "bob", Username := "bob", JoinedAt := 2, Points := 11 } ∧
    (sampleExplainGame.SubmitGuess "bob" "apple" 120).1.Players.lookup "ex" =
      some { ID := "ex", Username := "erin", JoinedAt := 1, Points := 6 } := by
  have h := spec_c8 50 20 30 sampleExplainGame "bob" "apple" 120
    { ID := "bob", Username := "bob", JoinedAt := 2, Points := 5 }
    { ID := "ex", Username := "erin", JoinedAt := 1, Points := 3 }
    (by decide) (by decide) rfl (by decide) (by decide) (by decide) (by decide) rfl
    (by decide) rfl (by decide) (by decide)
  refine ⟨h.1, h.2.1, h.2.2.1, h.2.2.2.1, h.2.2.2.2.1, ?_, ?_⟩
  · have hb : (sampleExplainGame.SubmitGuess "bob" "apple" 120).1.Players.lookup "bob" =
        some { ID := "bob", Username := "bob", JoinedAt := 2,
               Points := 5 + explain.guesserAward 50 20 } := h.2.2.2.2.2.1
    rw [hb]
    decide
  · have hx : (sampleExplainGame.SubmitGuess "bob" "apple" 120).1.Players.lookup "ex" =
        some { ID := "ex", Username := "erin", JoinedAt := 1,
               Points := 3 + explain.explainerAward 50 20 } := h.2.2.2.2.2.2
    rw [hx]
    decide
